import Mathlib

/-!
Verification of the path-generation core of the uav-waypoint-planner
repository (src/services/flightMath.ts, src/types.ts).

The embedding works over the real numbers: JavaScript Math.sin / Math.cos /
Math.asin are Real.sin / Real.cos / Real.arcsin, Math.atan2 y x is the
principal argument of the complex number x + y*I, Math.ceil is Int.ceil and
the JavaScript remainder operator a % b (sign of the dividend, truncated
division) is modelled by rmod below.  Waypoint lap counts are integers, as
the data-model section of the documentation requires.
-/

noncomputable section

namespace UAV

/-- Cesium.Math.toRadians. -/
def toRadians (x : ℝ) : ℝ := x * Real.pi / 180

/-- Cesium.Math.toDegrees. -/
def toDegrees (x : ℝ) : ℝ := x * 180 / Real.pi

/-- JavaScript Math.atan2 y x, the principal argument of x + y*I. -/
def atan2 (y x : ℝ) : ℝ := Complex.arg (x + y * Complex.I)

/-- Truncation toward zero, the implied division of the JavaScript % operator. -/
def rtrunc (x : ℝ) : ℤ := if 0 ≤ x then ⌊x⌋ else ⌈x⌉

/-- JavaScript remainder a % b (takes the sign of the dividend). -/
def rmod (a b : ℝ) : ℝ := a - b * rtrunc (a / b)

/-- WaypointType from src/types.ts. -/
inductive WaypointType where
  | NORMAL : WaypointType
  | ORBIT : WaypointType
deriving DecidableEq, Inhabited

/-- Waypoint from src/types.ts. -/
structure Waypoint where
  id : String
  lat : ℝ
  lon : ℝ
  alt : ℝ
  type : WaypointType
  orbitRadius : ℝ
  orbitPoints : ℤ
  orbitLaps : ℤ
  orbitSpeed : ℝ
deriving Inhabited

/-- SimulatedPoint from src/types.ts. -/
structure SimulatedPoint where
  lat : ℝ
  lon : ℝ
  alt : ℝ
  heading : ℝ
  isOrbit : Bool
deriving Inhabited

/-- The anonymous { lat, lon } record returned by getPointAtDistanceAndBearing. -/
structure LatLon where
  lat : ℝ
  lon : ℝ

/-- DEFAULT_SPEED from src/types.ts. -/
def DEFAULT_SPEED : ℝ := 10

/-- getPointAtDistanceAndBearing from src/services/flightMath.ts. -/
def getPointAtDistanceAndBearing (lat lon distMeters bearingDegrees : ℝ) : LatLon :=
  let R : ℝ := 6378137
  let d := distMeters
  let brng := toRadians bearingDegrees
  let lat1 := toRadians lat
  let lon1 := toRadians lon
  let lat2 := Real.arcsin (Real.sin lat1 * Real.cos (d / R) +
    Real.cos lat1 * Real.sin (d / R) * Real.cos brng)
  let lon2 := lon1 + atan2 (Real.sin brng * Real.sin (d / R) * Real.cos lat1)
    (Real.cos (d / R) - Real.sin lat1 * Real.sin lat2)
  { lat := toDegrees lat2, lon := toDegrees lon2 }

/-- calculateBearing from src/services/flightMath.ts. -/
def calculateBearing (startLat startLon destLat destLon : ℝ) : ℝ :=
  let startLatRad := toRadians startLat
  let startLonRad := toRadians startLon
  let destLatRad := toRadians destLat
  let destLonRad := toRadians destLon
  let y := Real.sin (destLonRad - startLonRad) * Real.cos destLatRad
  let x := Real.cos startLatRad * Real.sin destLatRad -
    Real.sin startLatRad * Real.cos destLatRad * Real.cos (destLonRad - startLonRad)
  let brng := atan2 y x
  rmod (toDegrees brng + 360) 360

/-- The divisor Math.max(0.1, speed) of the lap-time computation in
generateSimulationPath. -/
def clampedSpeed (speed : ℝ) : ℝ := max 0.1 speed

/-- The samples the orbit branch of generateSimulationPath pushes for one
orbit waypoint: the body of the for loop over j from 0 to totalSteps
inclusive (src/services/flightMath.ts lines 54 to 89). -/
def orbitSamples (current : Waypoint) (speed : ℝ) : List SimulatedPoint :=
  let circumference := 2 * Real.pi * current.orbitRadius
  let timePerLap := circumference / clampedSpeed speed
  let SAMPLE_INTERVAL_SECONDS : ℝ := 1.0
  let pointsPerLap : ℤ := max ⌈timePerLap / SAMPLE_INTERVAL_SECONDS⌉ 24
  let laps : ℤ := if current.orbitLaps = 0 then 1 else current.orbitLaps
  let angleStep : ℝ := 360 / (pointsPerLap : ℝ)
  let totalSteps : ℤ := pointsPerLap * laps
  (List.range (totalSteps + 1).toNat).map (fun (j : ℕ) =>
    let angle := (j : ℝ) * angleStep
    let circlePoint := getPointAtDistanceAndBearing current.lat current.lon
      current.orbitRadius angle
    let headingToCenter := calculateBearing circlePoint.lat circlePoint.lon
      current.lat current.lon
    { lat := circlePoint.lat, lon := circlePoint.lon, alt := current.alt,
      heading := headingToCenter, isOrbit := true })

/-- The for loop of generateSimulationPath: i is the loop index, path the
accumulator, and the remaining waypoints waypoints[i], waypoints[i+1], ...;
next = waypoints[i + 1] is the head of the remainder. -/
def genAux (speed : ℝ) : ℕ → List SimulatedPoint → List Waypoint → List SimulatedPoint
  | _, path, [] => path
  | i, path, current :: rest =>
    if current.type = WaypointType.ORBIT then
      genAux speed (i + 1) (path ++ orbitSamples current speed) rest
    else
      let heading : ℝ :=
        match rest.head? with
        | some next => calculateBearing current.lat current.lon next.lat next.lon
        | none =>
          if 0 < i then
            match path.getLast? with
            | some prev => prev.heading
            | none => 0
          else 0
      genAux speed (i + 1)
        (path ++ [{ lat := current.lat, lon := current.lon, alt := current.alt,
                    heading := heading, isOrbit := false }]) rest

/-- generateSimulationPath from src/services/flightMath.ts.  The source
declares speed as an optional parameter defaulting to DEFAULT_SPEED; the
default value plays no role in the algorithm itself. -/
def generateSimulationPath (waypoints : List Waypoint) (speed : ℝ) : List SimulatedPoint :=
  if waypoints.length < 1 then [] else genAux speed 0 [] waypoints

/-- orbitSamples with its one division by the clamped speed made explicitly
fallible: the computation is refused when the divisor is zero.  Used to state
that the original never divides by zero. -/
def orbitSamplesChecked (current : Waypoint) (speed : ℝ) : Option (List SimulatedPoint) :=
  let circumference := 2 * Real.pi * current.orbitRadius
  if clampedSpeed speed = 0 then none else
  let timePerLap := circumference / clampedSpeed speed
  let SAMPLE_INTERVAL_SECONDS : ℝ := 1.0
  let pointsPerLap : ℤ := max ⌈timePerLap / SAMPLE_INTERVAL_SECONDS⌉ 24
  let laps : ℤ := if current.orbitLaps = 0 then 1 else current.orbitLaps
  let angleStep : ℝ := 360 / (pointsPerLap : ℝ)
  let totalSteps : ℤ := pointsPerLap * laps
  some ((List.range (totalSteps + 1).toNat).map (fun (j : ℕ) =>
    let angle := (j : ℝ) * angleStep
    let circlePoint := getPointAtDistanceAndBearing current.lat current.lon
      current.orbitRadius angle
    let headingToCenter := calculateBearing circlePoint.lat circlePoint.lon
      current.lat current.lon
    { lat := circlePoint.lat, lon := circlePoint.lon, alt := current.alt,
      heading := headingToCenter, isOrbit := true }))

/-- genAux with the fallible orbit expansion threaded through Option. -/
def genAuxChecked (speed : ℝ) :
    ℕ → List SimulatedPoint → List Waypoint → Option (List SimulatedPoint)
  | _, path, [] => some path
  | i, path, current :: rest =>
    if current.type = WaypointType.ORBIT then
      match orbitSamplesChecked current speed with
      | none => none
      | some pts => genAuxChecked speed (i + 1) (path ++ pts) rest
    else
      let heading : ℝ :=
        match rest.head? with
        | some next => calculateBearing current.lat current.lon next.lat next.lon
        | none =>
          if 0 < i then
            match path.getLast? with
            | some prev => prev.heading
            | none => 0
          else 0
      genAuxChecked speed (i + 1)
        (path ++ [{ lat := current.lat, lon := current.lon, alt := current.alt,
                    heading := heading, isOrbit := false }]) rest

/-- generateSimulationPath with every division site checked. -/
def generateSimulationPathChecked (waypoints : List Waypoint) (speed : ℝ) :
    Option (List SimulatedPoint) :=
  if waypoints.length < 1 then some [] else genAuxChecked speed 0 [] waypoints

/-- Reference description of the plain-waypoint branch of
generateSimulationPath on an all-normal list: each waypoint becomes one
sample whose heading is the bearing to the following waypoint, the carried
argument supplying the heading of the previously emitted sample for the
final waypoint. -/
def normPath : List Waypoint → ℝ → List SimulatedPoint
  | [], _ => []
  | w :: rest, carried =>
    match rest with
    | [] => [⟨w.lat, w.lon, w.alt, carried, false⟩]
    | next :: _ =>
      ⟨w.lat, w.lon, w.alt, calculateBearing w.lat w.lon next.lat next.lon, false⟩ ::
        normPath rest (calculateBearing w.lat w.lon next.lat next.lon)

/-- A plain waypoint at the origin. -/
def wpN : Waypoint :=
  { id := "n1", lat := 0, lon := 0, alt := 10, type := WaypointType.NORMAL,
    orbitRadius := 30, orbitPoints := 36, orbitLaps := 1, orbitSpeed := 10 }

/-- A plain waypoint one degree of longitude east of wpN. -/
def wpN2 : Waypoint :=
  { id := "n2", lat := 0, lon := 1, alt := 10, type := WaypointType.NORMAL,
    orbitRadius := 30, orbitPoints := 36, orbitLaps := 1, orbitSpeed := 10 }

/-- An orbit waypoint with radius 30 and one lap. -/
def wpO : Waypoint :=
  { id := "o1", lat := 0, lon := 0, alt := 10, type := WaypointType.ORBIT,
    orbitRadius := 30, orbitPoints := 36, orbitLaps := 1, orbitSpeed := 10 }

/-- An orbit waypoint whose orbitLaps field is zero. -/
def wpO0 : Waypoint :=
  { id := "o0", lat := 0, lon := 0, alt := 10, type := WaypointType.ORBIT,
    orbitRadius := 30, orbitPoints := 36, orbitLaps := 0, orbitSpeed := 10 }

/-- An orbit waypoint whose orbitLaps field is negative. -/
def wpONeg : Waypoint :=
  { id := "on", lat := 0, lon := 0, alt := 10, type := WaypointType.ORBIT,
    orbitRadius := 30, orbitPoints := 36, orbitLaps := -1, orbitSpeed := 10 }

/-! Helper lemmas. -/

theorem toRadians_toDegrees (x : ℝ) : toRadians (toDegrees x) = x := by
  unfold toRadians toDegrees
  field_simp

theorem toDegrees_toRadians (x : ℝ) : toDegrees (toRadians x) = x := by
  unfold toRadians toDegrees
  field_simp

theorem toRadians_zero : toRadians 0 = 0 := by
  simp [toRadians]

theorem rmod_bounds (a : ℝ) (ha : 0 ≤ a) : 0 ≤ rmod a 360 ∧ rmod a 360 < 360 := by
  have h0 : (0 : ℝ) ≤ a / 360 := by positivity
  unfold rmod rtrunc
  rw [if_pos h0]
  have h1 : (⌊a / 360⌋ : ℝ) ≤ a / 360 := Int.floor_le _
  have h2 : a / 360 < ⌊a / 360⌋ + 1 := Int.lt_floor_add_one _
  constructor <;> nlinarith

theorem rmod_eq_self (b : ℝ) (hb0 : 0 ≤ b) (hb1 : b < 360) : rmod b 360 = b := by
  have h0 : (0 : ℝ) ≤ b / 360 := by positivity
  have hfl : ⌊b / 360⌋ = 0 := by
    rw [Int.floor_eq_zero_iff]
    constructor
    · exact h0
    · rw [div_lt_one (by norm_num : (0:ℝ) < 360)] at *
      linarith
  unfold rmod rtrunc
  rw [if_pos h0, hfl]
  simp

theorem rmod_add_360 (b : ℝ) (hb0 : 0 ≤ b) (hb1 : b < 360) : rmod (b + 360) 360 = b := by
  have h0 : (0 : ℝ) ≤ (b + 360) / 360 := by positivity
  have hq : (b + 360) / 360 = b / 360 + 1 := by ring
  have hfl0 : ⌊b / 360⌋ = 0 := by
    rw [Int.floor_eq_zero_iff]
    constructor
    · positivity
    · rw [div_lt_one (by norm_num : (0:ℝ) < 360)]
      linarith
  have hfl : ⌊(b + 360) / 360⌋ = 1 := by
    rw [hq, Int.floor_add_one, hfl0]
    norm_num
  unfold rmod rtrunc
  rw [if_pos h0, hfl]
  push_cast
  ring

theorem calculateBearing_eq (startLat startLon destLat destLon : ℝ) :
    calculateBearing startLat startLon destLat destLon =
      rmod (toDegrees (atan2
        (Real.sin (toRadians destLon - toRadians startLon) * Real.cos (toRadians destLat))
        (Real.cos (toRadians startLat) * Real.sin (toRadians destLat) -
          Real.sin (toRadians startLat) * Real.cos (toRadians destLat) *
            Real.cos (toRadians destLon - toRadians startLon))) + 360) 360 := rfl

theorem atan2_mem_Ioc (y x : ℝ) : -Real.pi < atan2 y x ∧ atan2 y x ≤ Real.pi :=
  ⟨Complex.neg_pi_lt_arg _, Complex.arg_le_pi _⟩

theorem calculateBearing_bounds (a b c d : ℝ) :
    0 ≤ calculateBearing a b c d ∧ calculateBearing a b c d < 360 := by
  rw [calculateBearing_eq]
  apply rmod_bounds
  have harg := (atan2_mem_Ioc
    (Real.sin (toRadians d - toRadians b) * Real.cos (toRadians c))
    (Real.cos (toRadians a) * Real.sin (toRadians c) -
      Real.sin (toRadians a) * Real.cos (toRadians c) *
        Real.cos (toRadians d - toRadians b))).1
  set t := atan2
    (Real.sin (toRadians d - toRadians b) * Real.cos (toRadians c))
    (Real.cos (toRadians a) * Real.sin (toRadians c) -
      Real.sin (toRadians a) * Real.cos (toRadians c) *
        Real.cos (toRadians d - toRadians b)) with ht
  have hpi : (0 : ℝ) < Real.pi := Real.pi_pos
  have hdeg : -180 < toDegrees t := by
    unfold toDegrees
    rw [lt_div_iff₀ hpi]
    nlinarith
  linarith

theorem genAux_nil (s : ℝ) (i : ℕ) (path : List SimulatedPoint) :
    genAux s i path [] = path := rfl

theorem genAux_orbit (s : ℝ) (i : ℕ) (path : List SimulatedPoint) (w : Waypoint)
    (rest : List Waypoint) (hw : w.type = WaypointType.ORBIT) :
    genAux s i path (w :: rest) = genAux s (i + 1) (path ++ orbitSamples w s) rest := by
  simp only [genAux, if_pos hw]

theorem genAux_normal_cons (s : ℝ) (i : ℕ) (path : List SimulatedPoint) (w next : Waypoint)
    (rest : List Waypoint) (hw : ¬ w.type = WaypointType.ORBIT) :
    genAux s i path (w :: next :: rest) = genAux s (i + 1)
      (path ++ [⟨w.lat, w.lon, w.alt,
        calculateBearing w.lat w.lon next.lat next.lon, false⟩]) (next :: rest) := by
  simp only [genAux, if_neg hw, List.head?_cons]

theorem genAux_normal_last_prev (s : ℝ) (i : ℕ) (path : List SimulatedPoint) (w : Waypoint)
    (prev : SimulatedPoint) (hw : ¬ w.type = WaypointType.ORBIT) (hi : 0 < i)
    (hp : path.getLast? = some prev) :
    genAux s i path [w] =
      path ++ [⟨w.lat, w.lon, w.alt, prev.heading, false⟩] := by
  simp only [genAux, if_neg hw, List.head?_nil, if_pos hi, hp]

theorem genAux_normal_last_none (s : ℝ) (i : ℕ) (path : List SimulatedPoint) (w : Waypoint)
    (hw : ¬ w.type = WaypointType.ORBIT)
    (h : 0 < i → path.getLast? = none) :
    genAux s i path [w] = path ++ [⟨w.lat, w.lon, w.alt, 0, false⟩] := by
  by_cases hi : 0 < i
  · simp only [genAux, if_neg hw, List.head?_nil, if_pos hi, h hi]
  · simp only [genAux, if_neg hw, List.head?_nil, if_neg hi]

theorem mem_of_getLast?_eq_some {α : Type} {l : List α} {a : α}
    (h : l.getLast? = some a) : a ∈ l := by
  have ha : a ∈ l.getLast? := by rw [h]; rfl
  obtain ⟨hne, heq⟩ := List.mem_getLast?_eq_getLast ha
  rw [heq]
  exact List.getLast_mem hne

theorem orbitSamples_length (w : Waypoint) (s : ℝ) :
    (orbitSamples w s).length =
      (max ⌈2 * Real.pi * w.orbitRadius / clampedSpeed s / 1.0⌉ 24 *
        (if w.orbitLaps = 0 then 1 else w.orbitLaps) + 1).toNat := by
  unfold orbitSamples
  rw [List.length_map, List.length_range]

theorem orbitSamples_mem_spec (w : Waypoint) (s : ℝ) (p : SimulatedPoint)
    (hp : p ∈ orbitSamples w s) :
    p.isOrbit = true ∧ p.heading = calculateBearing p.lat p.lon w.lat w.lon := by
  simp only [orbitSamples, List.mem_map, List.mem_range] at hp
  obtain ⟨j, hj, rfl⟩ := hp
  exact ⟨rfl, rfl⟩

theorem genAux_heading_bounds (s : ℝ) (l : List Waypoint) :
    ∀ (i : ℕ) (acc : List SimulatedPoint),
      (∀ p ∈ acc, 0 ≤ p.heading ∧ p.heading < 360) →
      ∀ p ∈ genAux s i acc l, 0 ≤ p.heading ∧ p.heading < 360 := by
  induction l with
  | nil =>
    intro i acc hacc p hp
    rw [genAux_nil] at hp
    exact hacc p hp
  | cons w rest ih =>
    intro i acc hacc p hp
    by_cases hw : w.type = WaypointType.ORBIT
    · rw [genAux_orbit s i acc w rest hw] at hp
      refine ih (i + 1) _ ?_ p hp
      intro q hq
      rcases List.mem_append.1 hq with h | h
      · exact hacc q h
      · obtain ⟨-, hh⟩ := orbitSamples_mem_spec w s q h
        rw [hh]
        exact calculateBearing_bounds _ _ _ _
    · cases rest with
      | nil =>
        cases hLast : acc.getLast? with
        | none =>
          rw [genAux_normal_last_none s i acc w hw (fun _ => hLast)] at hp
          rcases List.mem_append.1 hp with h | h
          · exact hacc p h
          · simp only [List.mem_singleton] at h
            subst h
            norm_num
        | some prev =>
          by_cases hi : 0 < i
          · rw [genAux_normal_last_prev s i acc w prev hw hi hLast] at hp
            rcases List.mem_append.1 hp with h | h
            · exact hacc p h
            · simp only [List.mem_singleton] at h
              subst h
              exact hacc prev (mem_of_getLast?_eq_some hLast)
          · rw [genAux_normal_last_none s i acc w hw (fun h => absurd h hi)] at hp
            rcases List.mem_append.1 hp with h | h
            · exact hacc p h
            · simp only [List.mem_singleton] at h
              subst h
              norm_num
      | cons next rest2 =>
        rw [genAux_normal_cons s i acc w next rest2 hw] at hp
        refine ih (i + 1) _ ?_ p hp
        intro q hq
        rcases List.mem_append.1 hq with h | h
        · exact hacc q h
        · simp only [List.mem_singleton] at h
          subst h
          exact calculateBearing_bounds _ _ _ _

/-! Claim theorems. -/

/-- C1: for an orbit waypoint with laps L at least 1, processed by the loop of
generateSimulationPath at speed s, the number of emitted samples is exactly
pointsPerLap * L + 1 with pointsPerLap = max(24, ceil(2*pi*r / max(0.1, s) / 1.0)):
the inclusive loop bound re-samples the start angle once per lap boundary. -/
theorem orbit_sample_count (w : Waypoint) (s : ℝ) (i : ℕ) (acc : List SimulatedPoint)
    (rest : List Waypoint) (h1 : w.type = WaypointType.ORBIT) (h2 : 1 ≤ w.orbitLaps) :
    genAux s i acc (w :: rest) = genAux s (i + 1) (acc ++ orbitSamples w s) rest ∧
    ((orbitSamples w s).length : ℤ) =
      max 24 ⌈2 * Real.pi * w.orbitRadius / max 0.1 s / 1.0⌉ * w.orbitLaps + 1 := by
  refine ⟨genAux_orbit s i acc w rest h1, ?_⟩
  rw [orbitSamples_length]
  have hne : ¬ w.orbitLaps = 0 := by omega
  rw [if_neg hne]
  have h24 : (24 : ℤ) ≤ max ⌈2 * Real.pi * w.orbitRadius / clampedSpeed s / 1.0⌉ 24 :=
    le_max_right _ _
  have hnn : (0 : ℤ) ≤
      max ⌈2 * Real.pi * w.orbitRadius / clampedSpeed s / 1.0⌉ 24 * w.orbitLaps + 1 := by
    have := mul_nonneg (le_trans (by norm_num) h24) (le_trans (by norm_num) h2)
    linarith
  rw [Int.toNat_of_nonneg hnn, max_comm]
  rfl

/-- Witness for the orbit sample count at a concrete waypoint (radius 30, one
lap, speed 10). -/
theorem orbit_sample_count_witness :
    (wpO.type = WaypointType.ORBIT ∧ 1 ≤ wpO.orbitLaps) ∧
    (genAux 10 0 [] (wpO :: []) = genAux 10 (0 + 1) ([] ++ orbitSamples wpO 10) [] ∧
      ((orbitSamples wpO 10).length : ℤ) =
        max 24 ⌈2 * Real.pi * wpO.orbitRadius / max 0.1 10 / 1.0⌉ * wpO.orbitLaps + 1) :=
  ⟨⟨rfl, by decide⟩, orbit_sample_count wpO 10 0 [] [] rfl (by decide)⟩

/-- C2: every sample emitted for an orbit waypoint carries the orbit flag and
a heading equal to the bearing from the sampled point back to the orbit
center. -/
theorem orbit_heading_poi (w : Waypoint) (s : ℝ) (p : SimulatedPoint)
    (h1 : w.type = WaypointType.ORBIT) (hp : p ∈ orbitSamples w s) :
    p.isOrbit = true ∧ p.heading = calculateBearing p.lat p.lon w.lat w.lon :=
  orbitSamples_mem_spec w s p hp

/-- Witness for the orbit heading property at the first emitted sample of a
concrete orbit. -/
theorem orbit_heading_poi_witness :
    (wpO.type = WaypointType.ORBIT ∧
      (orbitSamples wpO 10).getD 0 default ∈ orbitSamples wpO 10) ∧
    (((orbitSamples wpO 10).getD 0 default).isOrbit = true ∧
      ((orbitSamples wpO 10).getD 0 default).heading =
        calculateBearing ((orbitSamples wpO 10).getD 0 default).lat
          ((orbitSamples wpO 10).getD 0 default).lon wpO.lat wpO.lon) := by
  have hlen : 0 < (orbitSamples wpO 10).length := by
    rw [orbitSamples_length]
    have h24 : (24 : ℤ) ≤ max ⌈2 * Real.pi * wpO.orbitRadius / clampedSpeed 10 / 1.0⌉ 24 :=
      le_max_right _ _
    have h0 : (if wpO.orbitLaps = 0 then (1 : ℤ) else wpO.orbitLaps) = 1 := by decide
    rw [h0]
    omega
  obtain ⟨a, t, hat⟩ : ∃ a t, orbitSamples wpO 10 = a :: t := by
    cases hcase : orbitSamples wpO 10 with
    | nil => rw [hcase] at hlen; simp at hlen
    | cons a t => exact ⟨a, t, rfl⟩
  have hmem : (orbitSamples wpO 10).getD 0 default ∈ orbitSamples wpO 10 := by
    rw [hat]
    simp
  exact ⟨⟨rfl, hmem⟩, orbit_heading_poi wpO 10 _ rfl hmem⟩

/-- C5: calculateBearing always lands in the interval [0, 360), and every
sample produced by generateSimulationPath has its heading in [0, 360). -/
theorem heading_range (a b c d : ℝ) (wps : List Waypoint) (s : ℝ) (p : SimulatedPoint)
    (hp : p ∈ generateSimulationPath wps s) :
    (0 ≤ calculateBearing a b c d ∧ calculateBearing a b c d < 360) ∧
    (0 ≤ p.heading ∧ p.heading < 360) := by
  refine ⟨calculateBearing_bounds a b c d, ?_⟩
  unfold generateSimulationPath at hp
  by_cases h : wps.length < 1
  · rw [if_pos h] at hp
    simp at hp
  · rw [if_neg h] at hp
    refine genAux_heading_bounds s wps 0 [] ?_ p hp
    intro q hq
    simp at hq

/-- Witness for the heading range at a concrete single-waypoint run. -/
theorem heading_range_witness :
    ((⟨0, 0, 10, 0, false⟩ : SimulatedPoint) ∈ generateSimulationPath [wpN] 10) ∧
    ((0 ≤ calculateBearing 0 0 0 1 ∧ calculateBearing 0 0 0 1 < 360) ∧
      (0 ≤ (⟨0, 0, 10, 0, false⟩ : SimulatedPoint).heading ∧
        (⟨0, 0, 10, 0, false⟩ : SimulatedPoint).heading < 360)) := by
  have hrun : generateSimulationPath [wpN] 10 = [⟨0, 0, 10, 0, false⟩] := by
    rw [generateSimulationPath, if_neg (by simp)]
    rw [genAux_normal_last_none 10 0 [] wpN (by decide) (fun h => absurd h (lt_irrefl 0))]
    simp [wpN]
  have hp : (⟨0, 0, 10, 0, false⟩ : SimulatedPoint) ∈ generateSimulationPath [wpN] 10 := by
    rw [hrun]
    simp
  exact ⟨hp, heading_range 0 0 0 1 [wpN] 10 _ hp⟩

/-- C7: an empty waypoint list yields an empty output, without any error. -/
theorem empty_input (s : ℝ) : generateSimulationPath [] s = [] := rfl

/-- C8: generateSimulationPath is deterministic; identical waypoint lists and
speeds give identical outputs. -/
theorem deterministic (wps1 wps2 : List Waypoint) (s1 s2 : ℝ)
    (h1 : wps1 = wps2) (h2 : s1 = s2) :
    generateSimulationPath wps1 s1 = generateSimulationPath wps2 s2 := by
  rw [h1, h2]

/-- Witness for determinism at a concrete input. -/
theorem deterministic_witness :
    (([wpN] : List Waypoint) = [wpN] ∧ (10 : ℝ) = 10) ∧
    generateSimulationPath [wpN] 10 = generateSimulationPath [wpN] 10 :=
  ⟨⟨rfl, rfl⟩, deterministic [wpN] [wpN] 10 10 rfl rfl⟩

theorem clampedSpeed_pos (s : ℝ) : 0 < clampedSpeed s :=
  lt_of_lt_of_le (by norm_num) (le_max_left _ _)

theorem clampedSpeed_ne_zero (s : ℝ) : clampedSpeed s ≠ 0 :=
  ne_of_gt (clampedSpeed_pos s)

theorem orbitSamplesChecked_eq (w : Waypoint) (s : ℝ) :
    orbitSamplesChecked w s = some (orbitSamples w s) := by
  unfold orbitSamplesChecked orbitSamples
  rw [if_neg (clampedSpeed_ne_zero s)]

theorem genAuxChecked_eq (s : ℝ) (l : List Waypoint) :
    ∀ (i : ℕ) (acc : List SimulatedPoint),
      genAuxChecked s i acc l = some (genAux s i acc l) := by
  induction l with
  | nil => intro i acc; rfl
  | cons w rest ih =>
    intro i acc
    by_cases hw : w.type = WaypointType.ORBIT
    · simp only [genAuxChecked, genAux, if_pos hw, orbitSamplesChecked_eq]
      exact ih _ _
    · simp only [genAuxChecked, genAux, if_neg hw]
      exact ih _ _

/-- C6: generateSimulationPath is total — the lap-time divisor is the clamped
speed, which equals 0.1 for every nonpositive speed and is never zero, and
the division-checked variant of the function always succeeds, returning
exactly the unchecked result, on every input. -/
theorem total_and_clamped (wps : List Waypoint) (s s0 : ℝ) (h : s0 ≤ 0) :
    clampedSpeed s0 = 0.1 ∧ clampedSpeed s ≠ 0 ∧
    generateSimulationPathChecked wps s = some (generateSimulationPath wps s) := by
  refine ⟨?_, clampedSpeed_ne_zero s, ?_⟩
  · unfold clampedSpeed
    exact max_eq_left (le_trans h (by norm_num))
  · unfold generateSimulationPathChecked generateSimulationPath
    by_cases hl : wps.length < 1
    · rw [if_pos hl, if_pos hl]
    · rw [if_neg hl, if_neg hl]
      exact genAuxChecked_eq s wps 0 []

/-- Witness for totality and speed clamping at concrete inputs. -/
theorem total_and_clamped_witness :
    ((-5 : ℝ) ≤ 0) ∧
    (clampedSpeed (-5) = 0.1 ∧ clampedSpeed 10 ≠ 0 ∧
      generateSimulationPathChecked [wpO] 10 = some (generateSimulationPath [wpO] 10)) :=
  ⟨by norm_num, total_and_clamped [wpO] 10 (-5) (by norm_num)⟩

theorem orbitSamples_laps_zero (w : Waypoint) (s : ℝ) (h2 : w.orbitLaps = 0) :
    orbitSamples w s = orbitSamples { w with orbitLaps := 1 } s := by
  simp [orbitSamples, h2]

theorem genAux_replace_laps (s : ℝ) (w : Waypoint) (l2 : List Waypoint)
    (h1 : w.type = WaypointType.ORBIT) (h2 : w.orbitLaps = 0) :
    ∀ (l1 : List Waypoint) (i : ℕ) (acc : List SimulatedPoint),
      genAux s i acc (l1 ++ w :: l2) =
        genAux s i acc (l1 ++ { w with orbitLaps := 1 } :: l2) := by
  intro l1
  induction l1 with
  | nil =>
    intro i acc
    simp only [List.nil_append]
    rw [genAux_orbit s i acc w l2 h1,
      genAux_orbit s i acc { w with orbitLaps := 1 } l2
        (show ({ w with orbitLaps := 1 } : Waypoint).type = WaypointType.ORBIT from h1),
      ← orbitSamples_laps_zero w s h2]
  | cons a t ih =>
    intro i acc
    by_cases ha : a.type = WaypointType.ORBIT
    · simp only [List.cons_append]
      rw [genAux_orbit s i acc a _ ha, genAux_orbit s i acc a _ ha]
      exact ih _ _
    · simp only [List.cons_append]
      cases t with
      | nil =>
        simp only [List.nil_append]
        rw [genAux_normal_cons s i acc a w l2 ha, genAux_normal_cons s i acc a _ l2 ha]
        exact ih _ _
      | cons b t2 =>
        simp only [List.cons_append]
        rw [genAux_normal_cons s i acc a b _ ha, genAux_normal_cons s i acc a b _ ha]
        exact ih _ _

/-- C9: an orbit waypoint with orbitLaps equal to 0 is treated exactly like
the same waypoint with orbitLaps equal to 1, anywhere in the input list. -/
theorem laps_zero_default (l1 l2 : List Waypoint) (w : Waypoint) (s : ℝ)
    (h1 : w.type = WaypointType.ORBIT) (h2 : w.orbitLaps = 0) :
    generateSimulationPath (l1 ++ w :: l2) s =
      generateSimulationPath (l1 ++ { w with orbitLaps := 1 } :: l2) s := by
  unfold generateSimulationPath
  have hlen : (l1 ++ w :: l2).length = (l1 ++ { w with orbitLaps := 1 } :: l2).length := by
    simp
  rw [← hlen]
  by_cases hl : (l1 ++ w :: l2).length < 1
  · rw [if_pos hl, if_pos hl]
  · rw [if_neg hl, if_neg hl]
    exact genAux_replace_laps s w l2 h1 h2 l1 0 []

/-- Witness for the laps-zero default at a concrete orbit waypoint. -/
theorem laps_zero_default_witness :
    (wpO0.type = WaypointType.ORBIT ∧ wpO0.orbitLaps = 0) ∧
    generateSimulationPath ([] ++ wpO0 :: []) 10 =
      generateSimulationPath ([] ++ { wpO0 with orbitLaps := 1 } :: []) 10 :=
  ⟨⟨rfl, by decide⟩, laps_zero_default [] [] wpO0 10 rfl (by decide)⟩

theorem orbitSamples_neg_laps (w : Waypoint) (s : ℝ) (h2 : w.orbitLaps < 0) :
    orbitSamples w s = [] := by
  have hlen : (orbitSamples w s).length = 0 := by
    rw [orbitSamples_length]
    rw [if_neg (by omega : ¬ w.orbitLaps = 0)]
    have h24 : (24 : ℤ) ≤ max ⌈2 * Real.pi * w.orbitRadius / clampedSpeed s / 1.0⌉ 24 :=
      le_max_right _ _
    have h0 : (0 : ℤ) ≤ max ⌈2 * Real.pi * w.orbitRadius / clampedSpeed s / 1.0⌉ 24 := by
      linarith
    have hm : max ⌈2 * Real.pi * w.orbitRadius / clampedSpeed s / 1.0⌉ 24 * w.orbitLaps ≤
        max ⌈2 * Real.pi * w.orbitRadius / clampedSpeed s / 1.0⌉ 24 * (-1) :=
      mul_le_mul_of_nonneg_left (by omega) h0
    have hle : max ⌈2 * Real.pi * w.orbitRadius / clampedSpeed s / 1.0⌉ 24 * w.orbitLaps + 1 ≤ 0 := by
      linarith
    rw [Int.toNat_of_nonpos hle]
  exact List.length_eq_zero.1 hlen

/-- C10: a negative lap count makes the inclusive sampling loop body never
run, so the orbit waypoint emits no samples, and a following plain waypoint
with no successor and no previously emitted sample gets heading 0 through
the prev-undefined guard. -/
theorem negative_laps (w w2 : Waypoint) (s : ℝ)
    (h1 : w.type = WaypointType.ORBIT) (h2 : w.orbitLaps < 0)
    (h3 : w2.type = WaypointType.NORMAL) :
    orbitSamples w s = [] ∧
    generateSimulationPath [w, w2] s = [⟨w2.lat, w2.lon, w2.alt, 0, false⟩] := by
  have he := orbitSamples_neg_laps w s h2
  refine ⟨he, ?_⟩
  unfold generateSimulationPath
  rw [if_neg (by simp)]
  rw [genAux_orbit s 0 [] w [w2] h1, he]
  have hw2 : ¬ w2.type = WaypointType.ORBIT := by
    rw [h3]
    intro hc
    exact WaypointType.noConfusion hc
  rw [List.append_nil]
  rw [genAux_normal_last_none s 1 [] w2 hw2 (fun _ => rfl)]
  simp

/-- Witness for the negative-laps behavior at concrete waypoints. -/
theorem negative_laps_witness :
    (wpONeg.type = WaypointType.ORBIT ∧ wpONeg.orbitLaps < 0 ∧
      wpN.type = WaypointType.NORMAL) ∧
    (orbitSamples wpONeg 10 = [] ∧
      generateSimulationPath [wpONeg, wpN] 10 = [⟨wpN.lat, wpN.lon, wpN.alt, 0, false⟩]) :=
  ⟨⟨rfl, by decide, rfl⟩, negative_laps wpONeg wpN 10 rfl (by decide) rfl⟩

theorem normPath_nil (h : ℝ) : normPath [] h = [] := rfl

theorem normPath_single (w : Waypoint) (h : ℝ) :
    normPath [w] h = [⟨w.lat, w.lon, w.alt, h, false⟩] := rfl

theorem normPath_cons_cons (w next : Waypoint) (rest : List Waypoint) (h : ℝ) :
    normPath (w :: next :: rest) h =
      ⟨w.lat, w.lon, w.alt, calculateBearing w.lat w.lon next.lat next.lon, false⟩ ::
        normPath (next :: rest) (calculateBearing w.lat w.lon next.lat next.lon) := rfl

theorem genAux_all_normal (s : ℝ) (l : List Waypoint) :
    (∀ w ∈ l, w.type = WaypointType.NORMAL) →
    ∀ (i : ℕ) (acc : List SimulatedPoint), (i = 0 → acc = []) →
      genAux s i acc l = acc ++ normPath l (Option.elim acc.getLast? 0 SimulatedPoint.heading) := by
  induction l with
  | nil =>
    intro _ i acc _
    simp [genAux_nil, normPath_nil]
  | cons w rest ih =>
    intro hall i acc hinv
    have hw : ¬ w.type = WaypointType.ORBIT := by
      have hn := hall w (List.mem_cons_self w rest)
      rw [hn]
      intro hc
      exact WaypointType.noConfusion hc
    cases rest with
    | nil =>
      cases hLast : acc.getLast? with
      | none =>
        rw [genAux_normal_last_none s i acc w hw (fun _ => hLast), normPath_single]
        rfl
      | some prev =>
        by_cases hi : 0 < i
        · rw [genAux_normal_last_prev s i acc w prev hw hi hLast, normPath_single]
          rfl
        · have hacc : acc = [] := hinv (by omega)
          rw [hacc] at hLast
          simp at hLast
    | cons next rest2 =>
      rw [genAux_normal_cons s i acc w next rest2 hw]
      rw [ih (fun q hq => hall q (List.mem_cons_of_mem w hq)) (i + 1) _
        (fun h => absurd h (Nat.succ_ne_zero i))]
      rw [List.getLast?_concat, normPath_cons_cons]
      simp

theorem normPath_length (l : List Waypoint) : ∀ h : ℝ, (normPath l h).length = l.length := by
  induction l with
  | nil => intro h; rfl
  | cons w rest ih =>
    intro h
    cases rest with
    | nil => rfl
    | cons next rest2 =>
      rw [normPath_cons_cons, List.length_cons, List.length_cons, ih]

theorem normPath_heading_at (l : List Waypoint) :
    ∀ (h : ℝ) (i : ℕ), i + 1 < l.length →
      ((normPath l h).getD i default).heading =
        calculateBearing (l.getD i default).lat (l.getD i default).lon
          (l.getD (i + 1) default).lat (l.getD (i + 1) default).lon := by
  induction l with
  | nil => intro h i hi; simp at hi
  | cons w rest ih =>
    intro h i hi
    cases rest with
    | nil => simp at hi
    | cons next rest2 =>
      cases i with
      | zero =>
        rw [normPath_cons_cons]
        simp
      | succ j =>
        rw [normPath_cons_cons, List.getD_cons_succ, List.getD_cons_succ, List.getD_cons_succ]
        refine ih _ j ?_
        simp only [List.length_cons] at hi ⊢
        omega

theorem normPath_last_carry (l : List Waypoint) :
    ∀ h : ℝ, 2 ≤ l.length →
      ((normPath l h).getD (l.length - 1) default).heading =
        ((normPath l h).getD (l.length - 2) default).heading := by
  induction l with
  | nil => intro h hl; simp at hl
  | cons w rest ih =>
    intro h hl
    cases rest with
    | nil => simp at hl
    | cons next rest2 =>
      cases rest2 with
      | nil =>
        rw [normPath_cons_cons, normPath_single]
        simp
      | cons c rest3 =>
        have e1 : (w :: next :: c :: rest3).length - 1 =
            ((next :: c :: rest3).length - 1) + 1 := by
          simp only [List.length_cons]
          omega
        have e2 : (w :: next :: c :: rest3).length - 2 =
            ((next :: c :: rest3).length - 2) + 1 := by
          simp only [List.length_cons]
          omega
        rw [normPath_cons_cons, e1, e2, List.getD_cons_succ, List.getD_cons_succ]
        refine ih _ ?_
        simp

/-- C3: on an all-normal waypoint list of length at least 2, every waypoint
becomes exactly one sample, each sample's heading before the last is the
bearing to the next waypoint, and the last sample carries forward the heading
of the previously emitted sample. -/
theorem normal_headings (wps : List Waypoint) (s : ℝ) (i : ℕ)
    (hall : ∀ w ∈ wps, w.type = WaypointType.NORMAL)
    (hlen : 2 ≤ wps.length) (hi : i + 1 < wps.length) :
    (generateSimulationPath wps s).length = wps.length ∧
    ((generateSimulationPath wps s).getD i default).heading =
      calculateBearing (wps.getD i default).lat (wps.getD i default).lon
        (wps.getD (i + 1) default).lat (wps.getD (i + 1) default).lon ∧
    ((generateSimulationPath wps s).getD (wps.length - 1) default).heading =
      ((generateSimulationPath wps s).getD (wps.length - 2) default).heading := by
  have hrun : generateSimulationPath wps s = normPath wps 0 := by
    unfold generateSimulationPath
    rw [if_neg (by omega)]
    have hg := genAux_all_normal s wps hall 0 [] (fun _ => rfl)
    simpa using hg
  rw [hrun]
  exact ⟨normPath_length wps 0, normPath_heading_at wps 0 i hi, normPath_last_carry wps 0 hlen⟩

/-- Witness for the all-normal heading property on a concrete two-waypoint
list. -/
theorem normal_headings_witness :
    ((∀ w ∈ ([wpN, wpN2] : List Waypoint), w.type = WaypointType.NORMAL) ∧
      2 ≤ ([wpN, wpN2] : List Waypoint).length ∧
      0 + 1 < ([wpN, wpN2] : List Waypoint).length) ∧
    ((generateSimulationPath [wpN, wpN2] 10).length = ([wpN, wpN2] : List Waypoint).length ∧
      ((generateSimulationPath [wpN, wpN2] 10).getD 0 default).heading =
        calculateBearing (([wpN, wpN2] : List Waypoint).getD 0 default).lat
          (([wpN, wpN2] : List Waypoint).getD 0 default).lon
          (([wpN, wpN2] : List Waypoint).getD (0 + 1) default).lat
          (([wpN, wpN2] : List Waypoint).getD (0 + 1) default).lon ∧
      ((generateSimulationPath [wpN, wpN2] 10).getD
          (([wpN, wpN2] : List Waypoint).length - 1) default).heading =
        ((generateSimulationPath [wpN, wpN2] 10).getD
          (([wpN, wpN2] : List Waypoint).length - 2) default).heading) := by
  have hall : ∀ w ∈ ([wpN, wpN2] : List Waypoint), w.type = WaypointType.NORMAL := by
    intro w hw
    simp only [List.mem_cons, List.not_mem_nil, or_false] at hw
    rcases hw with h | h <;> subst h <;> rfl
  exact ⟨⟨hall, by simp, by simp⟩,
    normal_headings [wpN, wpN2] 10 0 hall (by simp) (by simp)⟩

theorem sin_three_pi_div_two : Real.sin (3 * Real.pi / 2) = -1 := by
  have h : (3 : ℝ) * Real.pi / 2 = Real.pi + Real.pi / 2 := by ring
  rw [h, Real.sin_add]
  simp

theorem cos_three_pi_div_two : Real.cos (3 * Real.pi / 2) = 0 := by
  have h : (3 : ℝ) * Real.pi / 2 = Real.pi + Real.pi / 2 := by ring
  rw [h, Real.cos_add]
  simp

theorem counterexample_point :
    getPointAtDistanceAndBearing 0 0 (3 * Real.pi / 2 * 6378137) 0 =
      ⟨-90, 0⟩ := by
  have hd : (3 * Real.pi / 2 * 6378137) / (6378137 : ℝ) = 3 * Real.pi / 2 := by
    field_simp
    ring
  simp only [getPointAtDistanceAndBearing, toRadians_zero, Real.sin_zero, Real.cos_zero, hd,
    sin_three_pi_div_two, cos_three_pi_div_two]
  norm_num
  constructor
  · unfold toDegrees
    field_simp
    ring
  · rw [show atan2 0 0 = 0 by simp [atan2, Complex.arg_zero]]
    simp [toDegrees]

theorem counterexample_bearing : calculateBearing 0 0 (-90) 0 = 180 := by
  have h90 : toRadians (-90) = -(Real.pi / 2) := by
    unfold toRadians
    ring
  simp only [calculateBearing, toRadians_zero, h90, sub_zero, Real.sin_zero, Real.cos_zero,
    Real.sin_neg, Real.cos_neg, Real.sin_pi_div_two, Real.cos_pi_div_two]
  norm_num
  have hatan : atan2 0 (-1) = Real.pi := by
    unfold atan2
    norm_num
  rw [hatan]
  have hdeg : toDegrees Real.pi = 180 := by
    unfold toDegrees
    field_simp
  rw [hdeg]
  exact rmod_add_360 180 (by norm_num) (by norm_num)

theorem rmod_zero_360 : rmod 0 360 = 0 := by
  simp [rmod, rtrunc]

/-- C4 counterexample: from the origin with bearing 0 and the positive
distance 3*pi/2 times the earth radius, the projection lands on the south
pole and the bearing from the origin back to it is 180, not 0 mod 360: the
round-trip property fails for this d > 0. -/
theorem roundtrip_counterexample :
    0 < 3 * Real.pi / 2 * 6378137 ∧
    calculateBearing 0 0 (getPointAtDistanceAndBearing 0 0 (3 * Real.pi / 2 * 6378137) 0).lat
      (getPointAtDistanceAndBearing 0 0 (3 * Real.pi / 2 * 6378137) 0).lon = 180 ∧
    rmod 0 360 = 0 ∧
    calculateBearing 0 0 (getPointAtDistanceAndBearing 0 0 (3 * Real.pi / 2 * 6378137) 0).lat
      (getPointAtDistanceAndBearing 0 0 (3 * Real.pi / 2 * 6378137) 0).lon ≠ rmod 0 360 := by
  have hpos : 0 < 3 * Real.pi / 2 * 6378137 := by positivity
  rw [counterexample_point]
  refine ⟨hpos, counterexample_bearing, rmod_zero_360, ?_⟩
  rw [counterexample_bearing, rmod_zero_360]
  norm_num

theorem abs_sin_mul_cos_le_one (a b : ℝ) : |Real.sin a * Real.cos b| ≤ 1 := by
  rw [abs_mul]
  exact mul_le_one₀ (Real.abs_sin_le_one a) (abs_nonneg _) (Real.abs_cos_le_one b)

/-- C4 amended: the round trip holds with the origin on the equator, any
bearing b in [0, 360) and any distance d with 0 < d below a quarter great
circle; the unrestricted claim fails once the path crosses a pole (see the
counterexample). -/
theorem roundtrip_amended (lon b d : ℝ) (hb0 : 0 ≤ b) (hb1 : b < 360)
    (hd0 : 0 < d) (hd1 : d < Real.pi / 2 * 6378137) :
    calculateBearing 0 lon (getPointAtDistanceAndBearing 0 lon d b).lat
      (getPointAtDistanceAndBearing 0 lon d b).lon = rmod b 360 := by
  have hpi : (0 : ℝ) < Real.pi := Real.pi_pos
  set δ : ℝ := d / 6378137 with hδ
  have hδ0 : 0 < δ := by positivity
  have hδ1 : δ < Real.pi / 2 := by
    rw [hδ, div_lt_iff₀ (by norm_num : (0 : ℝ) < 6378137)]
    linarith
  set β : ℝ := toRadians b with hβ
  have hsδ : 0 < Real.sin δ := Real.sin_pos_of_pos_of_lt_pi hδ0 (by linarith)
  have hcδ : 0 < Real.cos δ := Real.cos_pos_of_mem_Ioo ⟨by linarith, hδ1⟩
  set u : ℝ := Real.sin δ * Real.cos β with hu
  obtain ⟨hu1, hu2⟩ : -1 ≤ u ∧ u ≤ 1 := by
    rw [hu]
    exact abs_le.mp (abs_sin_mul_cos_le_one δ β)
  have hpoint : getPointAtDistanceAndBearing 0 lon d b =
      ⟨toDegrees (Real.arcsin u),
        toDegrees (toRadians lon + atan2 (Real.sin β * Real.sin δ) (Real.cos δ))⟩ := by
    simp only [getPointAtDistanceAndBearing, toRadians_zero, Real.sin_zero, Real.cos_zero,
      zero_mul, one_mul, mul_one, zero_add, sub_zero]
  rw [hpoint]
  set Λ : ℝ := atan2 (Real.sin β * Real.sin δ) (Real.cos δ) with hΛ
  have hbear : calculateBearing 0 lon (toDegrees (Real.arcsin u))
      (toDegrees (toRadians lon + Λ)) =
      rmod (toDegrees (atan2 (Real.sin Λ * Real.cos (Real.arcsin u))
        (Real.sin (Real.arcsin u))) + 360) 360 := by
    simp only [calculateBearing, toRadians_zero, toRadians_toDegrees, Real.sin_zero,
      Real.cos_zero, one_mul, zero_mul, sub_zero, add_sub_cancel_left]
  rw [hbear]
  have hsin_arc : Real.sin (Real.arcsin u) = u := Real.sin_arcsin hu1 hu2
  have hcos_arc : Real.cos (Real.arcsin u) = Real.sqrt (1 - u ^ 2) := Real.cos_arcsin u
  set z : ℂ := (Real.cos δ : ℂ) + (Real.sin β * Real.sin δ : ℝ) * Complex.I with hz
  have hzre : z.re = Real.cos δ := by
    rw [hz]
    simp only [Complex.add_re, Complex.ofReal_re, Complex.mul_re, Complex.ofReal_im,
      Complex.I_re, Complex.I_im, mul_zero, mul_one, zero_mul, sub_zero, add_zero]
  have hzim : z.im = Real.sin β * Real.sin δ := by
    rw [hz]
    simp only [Complex.add_im, Complex.ofReal_im, Complex.mul_im, Complex.ofReal_re,
      Complex.I_re, Complex.I_im, mul_zero, mul_one, zero_mul, add_zero, zero_add]
  have hzne : z ≠ 0 := by
    intro h
    rw [h] at hzre
    simp at hzre
    linarith
  have hrad : (Real.cos δ) ^ 2 + (Real.sin β * Real.sin δ) ^ 2 = 1 - u ^ 2 := by
    rw [hu]
    nlinarith [Real.sin_sq_add_cos_sq δ, Real.sin_sq_add_cos_sq β]
  have habsz : Complex.abs z = Real.sqrt (1 - u ^ 2) := by
    rw [hz, Complex.abs_apply, Complex.normSq_add_mul_I, hrad]
  have habs_pos : 0 < Complex.abs z := Complex.abs.pos hzne
  have hΛarg : Λ = Complex.arg z := by
    rw [hΛ, hz]
    rfl
  have hy : Real.sin Λ * Real.cos (Real.arcsin u) = Real.sin β * Real.sin δ := by
    rw [hΛarg, Complex.sin_arg, hzim, hcos_arc, ← habsz]
    exact div_mul_cancel₀ _ (ne_of_gt habs_pos)
  rw [hy, hsin_arc, hu]
  have hfactor : ((Real.sin δ * Real.cos β : ℝ) : ℂ) +
      ((Real.sin β * Real.sin δ : ℝ) : ℂ) * Complex.I =
      ((Real.sin δ : ℝ) : ℂ) * ((Real.cos β : ℝ) + (Real.sin β : ℝ) * Complex.I) := by
    push_cast
    ring
  have hargmul : atan2 (Real.sin β * Real.sin δ) (Real.sin δ * Real.cos β) =
      Complex.arg ((Real.cos β : ℂ) + (Real.sin β : ℝ) * Complex.I) := by
    unfold atan2
    rw [hfactor, Complex.arg_real_mul _ hsδ]
  rw [hargmul]
  rcases le_or_lt b 180 with hble | hbgt
  · have hβ0 : 0 ≤ β := by
      rw [hβ]
      unfold toRadians
      exact div_nonneg (mul_nonneg hb0 hpi.le) (by norm_num)
    have hβπ : β ≤ Real.pi := by
      rw [hβ]
      unfold toRadians
      rw [div_le_iff₀ (by norm_num : (0 : ℝ) < 180)]
      have h1 : b * Real.pi ≤ 180 * Real.pi := mul_le_mul_of_nonneg_right hble hpi.le
      linarith
    rw [Complex.ofReal_cos, Complex.ofReal_sin]
    rw [Complex.arg_cos_add_sin_mul_I ⟨by linarith, hβπ⟩]
    rw [hβ, toDegrees_toRadians]
    rw [rmod_add_360 b hb0 hb1, rmod_eq_self b hb0 hb1]
  · have hβgt : Real.pi < β := by
      rw [hβ]
      unfold toRadians
      rw [lt_div_iff₀ (by norm_num : (0 : ℝ) < 180)]
      have h1 : 180 * Real.pi < b * Real.pi := mul_lt_mul_of_pos_right hbgt hpi
      linarith
    have hβlt : β < 2 * Real.pi := by
      rw [hβ]
      unfold toRadians
      rw [div_lt_iff₀ (by norm_num : (0 : ℝ) < 180)]
      have h1 : b * Real.pi < 360 * Real.pi := mul_lt_mul_of_pos_right hb1 hpi
      linarith
    have hc : Real.cos β = Real.cos (β - 2 * Real.pi) := (Real.cos_sub_two_pi β).symm
    have hs : Real.sin β = Real.sin (β - 2 * Real.pi) := (Real.sin_sub_two_pi β).symm
    rw [hc, hs]
    rw [Complex.ofReal_cos, Complex.ofReal_sin]
    rw [Complex.arg_cos_add_sin_mul_I ⟨by linarith, by linarith⟩]
    have hdeg : toDegrees (β - 2 * Real.pi) = b - 360 := by
      rw [hβ]
      unfold toDegrees toRadians
      field_simp
      ring
    rw [hdeg, show b - 360 + 360 = b by ring]

/-- Witness for the amended round trip at a concrete equator origin, bearing
90 degrees and distance 1000 km. -/
theorem roundtrip_amended_witness :
    ((0 : ℝ) ≤ 90 ∧ (90 : ℝ) < 360 ∧ (0 : ℝ) < 1000000 ∧
      (1000000 : ℝ) < Real.pi / 2 * 6378137) ∧
    calculateBearing 0 5 (getPointAtDistanceAndBearing 0 5 1000000 90).lat
      (getPointAtDistanceAndBearing 0 5 1000000 90).lon = rmod 90 360 := by
  have hd : (1000000 : ℝ) < Real.pi / 2 * 6378137 := by
    nlinarith [Real.pi_gt_d6]
  exact ⟨⟨by norm_num, by norm_num, by norm_num, hd⟩,
    roundtrip_amended 5 90 1000000 (by norm_num) (by norm_num) (by norm_num) hd⟩

end UAV

end
